import Mathlib

/-!
Shallow embedding of the xfsrs XFS manager runtime: the buffer heap
(src/xfslib/src/heap.rs and src/xfslib/src/supp.rs), the timer slot tables
(src/xfslib/src/supp.rs and src/xfslib/src/timer.rs), the blocked-thread
bookkeeping and synchronous-call bridge (src/xfs_mgr/src/lib.rs), and the
session table / provider dispatch (src/xfs_mgr/src/lib.rs,
src/xfs_mgr/src/manager.rs, src/xfs_mgr/src/service.rs).

Machine pointers are modelled as monotonically increasing Nat identifiers
(a live Rust buffer address is distinct from every other live address, and
the model never reuses an identifier).  HRESULT values are Int.  Panics
(out-of-bounds indexing) are modelled as Option.none results.
-/

namespace XFS

/-- Modelled from the spec: the numeric HRESULT error constants.  The module
that defines them (xfslib errors.rs, re-exported by xfslib/src/lib.rs) is not
present under src/, so the constants use the standard CWA 16926-1 values named
throughout the spec; only their distinctness matters to any claim. -/
def WFS_SUCCESS : Int := 0

def WFS_ERR_CANCELED : Int := -4

def WFS_ERR_HARDWARE_ERROR : Int := -14

def WFS_ERR_INTERNAL_ERROR : Int := -15

def WFS_ERR_INVALID_APP_HANDLE : Int := -17

def WFS_ERR_INVALID_BUFFER : Int := -18

def WFS_ERR_INVALID_HSERVICE : Int := -22

def WFS_ERR_INVALID_HWND : Int := -24

def WFS_ERR_INVALID_POINTER : Int := -26

def WFS_ERR_INVALID_SERVPROV : Int := -29

def WFS_ERR_INVALID_TIMER : Int := -30

def WFS_ERR_NO_BLOCKING_CALL : Int := -33

def WFS_ERR_NOT_STARTED : Int := -39

def WFS_ERR_OP_IN_PROGRESS : Int := -41

def WFS_ERR_OUT_OF_MEMORY : Int := -42

def WFS_ERR_INVALID_DATA : Int := -46

/-- MAX_HEAP_SIZE in src/xfslib/src/heap.rs and src/xfslib/src/supp.rs:
1 * 1000 * 1000 * 1000 bytes. -/
def MAX_HEAP_SIZE : Nat := 1000000000

/-- An allocation of the buffer heap (struct Allocation in
src/xfslib/src/heap.rs / supp.rs): a byte buffer (modelled by its pointer
identity and length), the originating flags, and the ordered child
allocations created from it via allocate_more. -/
inductive Allocation : Type where
  | mk (ptr size flags : Nat) (child : List Allocation) : Allocation

def Allocation.ptr : Allocation → Nat
  | .mk p _ _ _ => p

def Allocation.size : Allocation → Nat
  | .mk _ s _ _ => s

def Allocation.flags : Allocation → Nat
  | .mk _ _ f _ => f

def Allocation.child : Allocation → List Allocation
  | .mk _ _ _ c => c

mutual

/-- Total bytes owned by an allocation and its whole subtree: this is what
the recursive Drop impl (heap.rs lines 31-35) subtracts from the shared
counter when the allocation is dropped, one buffer length per node. -/
def Allocation.totalBytes : Allocation → Nat
  | .mk _ s _ c => s + Allocation.listBytes c

/-- Sum of Allocation.totalBytes over a child list. -/
def Allocation.listBytes : List Allocation → Nat
  | [] => 0
  | a :: rest => Allocation.totalBytes a + Allocation.listBytes rest

end

/-- Append a new child allocation to a parent's child list
(allocations.get_mut(original).unwrap().child.push(allocation)). -/
def Allocation.pushChild : Allocation → Allocation → Allocation
  | .mk p s f c, a => .mk p s f (c ++ [a])

/-- struct Heap: the root allocations keyed by their data pointer
(HashMap modelled as a list with distinct ptr keys), the shared outstanding
byte counter (total_bytes), and the fresh-pointer supply of the model. -/
structure Heap where
  allocations : List Allocation
  totalBytes : Nat
  nextPtr : Nat

/-- Heap::new: empty map, zero counter.  Pointer identifiers start at 1 so
that no buffer models the null pointer. -/
def Heap.new : Heap := ⟨[], 0, 1⟩

/-- Heap::try_allocate (heap.rs lines 97-107, supp.rs lines 94-104): the
compare-and-swap loop either reserves the whole size under quota, or fails
with WFS_ERR_OUT_OF_MEMORY leaving the counter untouched.  The usize
checked_add failure also maps to a counter above MAX_HEAP_SIZE. -/
def Heap.tryAllocate (h : Heap) (size flags : Nat) : Except Int Allocation × Heap :=
  if MAX_HEAP_SIZE < h.totalBytes + size then
    (.error WFS_ERR_OUT_OF_MEMORY, h)
  else
    (.ok (.mk h.nextPtr size flags []),
     { h with totalBytes := h.totalBytes + size, nextPtr := h.nextPtr + 1 })

/-- self.allocations.get(&(p as usize)) on the root map. -/
def Heap.findRoot (h : Heap) (p : Nat) : Option Allocation :=
  h.allocations.find? (fun a => a.ptr == p)

/-- Heap::allocate_buffer minus the raw out-pointer plumbing: try_allocate,
then insert the new allocation as a root keyed by its pointer. -/
def Heap.allocateBuffer (h : Heap) (size flags : Nat) : Except Int Nat × Heap :=
  match h.tryAllocate size flags with
  | (.error e, h') => (.error e, h')
  | (.ok a, h') => (.ok a.ptr, { h' with allocations := a :: h'.allocations })

/-- Heap::allocate_more (heap.rs lines 63-85): look the parent up among the
roots (children are not in the map, so a child parent fails with
WFS_ERR_INVALID_BUFFER), inherit its flags, reserve quota, and push the new
allocation onto the parent's child list. -/
def Heap.allocateMore (h : Heap) (size : Nat) (parent : Nat) : Except Int Nat × Heap :=
  match h.findRoot parent with
  | none => (.error WFS_ERR_INVALID_BUFFER, h)
  | some pa =>
    match h.tryAllocate size pa.flags with
    | (.error e, h') => (.error e, h')
    | (.ok a, h') =>
      (.ok a.ptr,
       { h' with allocations :=
          h'.allocations.map (fun r => if r.ptr == parent then r.pushChild a else r) })

/-- Heap::deallocate (heap.rs lines 87-95): remove the root keyed by the
pointer; if there is none the call fails with WFS_ERR_INVALID_BUFFER and the
heap is untouched.  Removing the root drops it and all children, and each
Drop subtracts its buffer length from the shared counter. -/
def Heap.deallocate (h : Heap) (p : Nat) : Except Int Unit × Heap :=
  match h.findRoot p with
  | none => (.error WFS_ERR_INVALID_BUFFER, h)
  | some a =>
    (.ok (),
     { h with allocations := h.allocations.filter (fun r => r.ptr != p),
              totalBytes := h.totalBytes - a.totalBytes })

/-- One heap API call, as exposed by allocate_buffer / allocate_more /
free_buffer. -/
inductive HeapOp : Type where
  | alloc (size flags : Nat)
  | allocMore (parent size : Nat)
  | free (p : Nat)

/-- State transition of a single heap call (errors leave the heap as the
source leaves it). -/
def Heap.step (h : Heap) (op : HeapOp) : Heap :=
  match op with
  | .alloc s f => (h.allocateBuffer s f).2
  | .allocMore p s => (h.allocateMore s p).2
  | .free p => (h.deallocate p).2

/-- The heap reached from Heap::new by a sequence of API calls. -/
def Heap.run (ops : List HeapOp) : Heap := ops.foldl Heap.step Heap.new

/-- Sum of the subtree bytes of all live roots. -/
def Heap.rootBytes (h : Heap) : Nat :=
  (h.allocations.map Allocation.totalBytes).sum

/-- Whether p is the pointer of a child allocation of some live root. -/
def Heap.isChild (h : Heap) (p : Nat) : Bool :=
  h.allocations.any (fun a => a.child.any (fun c => c.ptr == p))

/-- Well-formedness of a heap state, established for every state reachable
from Heap::new: the shared counter equals the bytes owned by the live roots;
every pointer is below the fresh supply; root keys are distinct; and no
child pointer collides with a root key. -/
structure Heap.Inv (h : Heap) : Prop where
  sum_eq : h.totalBytes = h.rootBytes
  root_lt : ∀ a ∈ h.allocations, a.ptr < h.nextPtr
  child_lt : ∀ a ∈ h.allocations, ∀ c ∈ a.child, c.ptr < h.nextPtr
  nodup : (h.allocations.map Allocation.ptr).Nodup
  disj : ∀ a ∈ h.allocations, ∀ c ∈ a.child, ∀ b ∈ h.allocations, c.ptr ≠ b.ptr

/-! ## Manager facade: blocked-thread set and the synchronous-call bridge
(src/xfs_mgr/src/lib.rs) -/

/-- Manager-facade state touched by the blocking machinery: the STARTED flag
and the BLOCKED_THREADS map from thread id to its cancel flag. -/
structure MgrState where
  started : Bool
  blockedThreads : List (Nat × Bool)
deriving Repr, DecidableEq

/-- BLOCKED_THREADS.contains_key(thread_id). -/
def MgrState.containsThread (s : MgrState) (tid : Nat) : Bool :=
  s.blockedThreads.any (fun e => e.1 == tid)

/-- blocked_threads.insert(thread_id, flag): replace the entry if present,
otherwise add it. -/
def MgrState.insertThread (s : MgrState) (tid : Nat) (flag : Bool) : MgrState :=
  if s.containsThread tid then
    { s with blockedThreads :=
        s.blockedThreads.map (fun e => if e.1 == tid then (tid, flag) else e) }
  else
    { s with blockedThreads := (tid, flag) :: s.blockedThreads }

/-- blocked_threads.remove(thread_id). -/
def MgrState.removeThread (s : MgrState) (tid : Nat) : MgrState :=
  { s with blockedThreads := s.blockedThreads.filter (fun e => e.1 != tid) }

/-- blocked_threads.get(&thread_id).unwrap_or(&false): the cancel flag of a
thread, false when the thread is not in the set. -/
def MgrState.cancelFlag (s : MgrState) (tid : Nat) : Bool :=
  match s.blockedThreads.find? (fun e => e.1 == tid) with
  | some e => e.2
  | none => false

/-- How the blocking wait loop of call_async terminates, once the
asynchronous form has returned WFS_SUCCESS: either the cancel flag set by a
concurrent WFSCancelBlockingCall is observed, or the completion message with
the provider's hResult arrives at the call-scoped window. -/
inductive WaitOutcome : Type where
  | canceled
  | completed (hResult : Int)

/-- call_async (src/xfs_mgr/src/lib.rs lines 1053-1090).  If the
asynchronous form returns anything other than WFS_SUCCESS the result is
propagated at once (the blocked-thread entry is NOT removed on this path).
Otherwise the loop runs until it either observes the cancel flag — set by
the canceller's insert, modelled here just before the removal — and removes
the thread returning WFS_ERR_CANCELED, or receives the completion and
returns the embedded hResult (again without removing the thread).  The
third component records whether the asynchronous form (and hence the
provider) was invoked. -/
def callAsync (st : MgrState) (tid : Nat) (asyncResult : Int) (outcome : WaitOutcome) :
    Int × MgrState × Bool :=
  if asyncResult != WFS_SUCCESS then
    (asyncResult, st, true)
  else
    match outcome with
    | .canceled => (WFS_ERR_CANCELED, (st.insertThread tid true).removeThread tid, true)
    | .completed hr => (hr, st, true)

/-- The shape shared by every synchronous wrapper (WFSClose, WFSDeregister,
WFSExecute, WFSGetInfo, WFSLock, WFSOpen, WFSRegister, WFSUnlock):
assert_started, then block_thread (reject with WFS_ERR_OP_IN_PROGRESS when
the calling thread is already in BLOCKED_THREADS, otherwise insert it with
cancel=false), then call_async. -/
def syncCall (st : MgrState) (tid : Nat) (asyncResult : Int) (outcome : WaitOutcome) :
    Int × MgrState × Bool :=
  if st.started = false then
    (WFS_ERR_NOT_STARTED, st, false)
  else if st.containsThread tid then
    (WFS_ERR_OP_IN_PROGRESS, st, false)
  else
    callAsync (st.insertThread tid false) tid asyncResult outcome

/-- WFSCancelBlockingCall (src/xfs_mgr/src/lib.rs lines 163-181): resolve
thread id 0 to the calling thread, set the cancel flag if the thread is in
BLOCKED_THREADS, and return WFS_SUCCESS in every case. -/
def cancelBlockingCall (st : MgrState) (dwThreadID selfId : Nat) : Int × MgrState :=
  if st.started = false then
    (WFS_ERR_NOT_STARTED, st)
  else if st.containsThread (if dwThreadID == 0 then selfId else dwThreadID) then
    (WFS_SUCCESS, st.insertThread (if dwThreadID == 0 then selfId else dwThreadID) true)
  else
    (WFS_SUCCESS, st)

/-! ## Session table and provider dispatch (src/xfs_mgr/src/lib.rs,
src/xfs_mgr/src/manager.rs, src/xfs_mgr/src/service.rs) -/

/-- Modulus of the u32 per-session request-id counter. -/
def UINT32_MOD : Nat := 4294967296

/-- Service::get_request_id (src/xfs_mgr/src/service.rs lines 114-121) and
the increment of get_service_req (src/xfs_mgr/src/lib.rs lines 110-124):
the wrapping u32 increment of the per-session counter; the new value is
stored, written to the caller's request-id output and returned. -/
def getRequestId (requestId : Nat) : Nat := (requestId + 1) % UINT32_MOD

/-- The request id after n dispatches on a session whose counter starts at
zero. -/
def requestIdAfter : Nat → Nat
  | 0 => 0
  | n + 1 => getRequestId (requestIdAfter n)

/-- One session table entry (struct Service): its request-id counter, the
loaded provider module (by identifier) and the trace level. -/
structure MgrService where
  requestId : Nat
  module : Nat
  traceLevel : Nat
deriving Repr, DecidableEq

/-- get_service_req (src/xfs_mgr/src/lib.rs lines 110-124): handle 0 is
always invalid; otherwise index slot hService - 1, fail if empty, else
increment the session's request id in place and hand the updated session
back together with the updated table. -/
def getServiceReq (table : List (Option MgrService)) (hService : Nat) :
    Option (MgrService × List (Option MgrService)) :=
  if hService == 0 then none
  else
    match table.get? (hService - 1) with
    | some (some svc) =>
      let svc' := { svc with requestId := getRequestId svc.requestId }
      some (svc', table.set (hService - 1) (some svc'))
    | _ => none

/-- The common body of the asynchronous dispatch entry points
(WFSAsyncClose, WFSAsyncDeregister, WFSAsyncExecute, WFSAsyncGetInfo,
WFSAsyncLock, WFSAsyncRegister, WFSAsyncUnlock in src/xfs_mgr/src/lib.rs):
resolve the session and increment its request id, write the new id to the
caller's request-id output, resolve the provider export (failure is
WFS_ERR_INTERNAL_ERROR), and forward the call returning the provider's
result.  The session slot is never released here.  Result components:
(returned HRESULT, session table after the call, request id written to the
output if any). -/
def wfsAsyncDispatch (table : List (Option MgrService)) (hService : Nat)
    (symbolOk : Bool) (providerRc : Int) :
    Int × List (Option MgrService) × Option Nat :=
  match getServiceReq table hService with
  | none => (WFS_ERR_INVALID_HSERVICE, table, none)
  | some (svc', table') =>
    if symbolOk then (providerRc, table', some svc'.requestId)
    else (WFS_ERR_INTERNAL_ERROR, table', some svc'.requestId)

/-- Environment of one open-service call: whether the two configuration
lookups succeed, whether the provider module loads, and the HRESULT the
provider's own WFPOpen entry returns. -/
structure OpenEnv where
  configOk : Bool
  loadOk : Bool
  providerOpenResult : Int
deriving Repr, DecidableEq

/-- Session table together with the set of currently loaded provider module
handles and the model's fresh module-identifier supply.  A module inside a
published session is owned by its slot; dropping a Service (Rust Drop of
libloading::Library) unloads its module. -/
structure ProviderTable where
  services : List (Option MgrService)
  loadedModules : List Nat
  nextModule : Nat
deriving Repr, DecidableEq

/-- services.iter().position(|s| s.is_none()). -/
def firstFreeSlot (table : List (Option MgrService)) : Option Nat :=
  table.findIdx? (fun s => s.isNone)

/-- WFSAsyncOpen (src/xfs_mgr/src/lib.rs lines 483-624), from the point the
inputs are zeroed: both registry lookups must succeed (else
WFS_ERR_INVALID_SERVPROV), the provider module is loaded (failure is
WFS_ERR_INTERNAL_ERROR), the first free slot is claimed and the session
published with request_id 1, the outputs are set to slot index + 1 and 1,
and the provider's WFPOpen is invoked — its return value is discarded and
the function returns WFS_SUCCESS.  Result components: (HRESULT, state,
hService output, request-id output). -/
def wfsAsyncOpen (st : ProviderTable) (env : OpenEnv) (traceLevel : Nat) :
    Int × ProviderTable × Nat × Nat :=
  if env.configOk = false then
    (WFS_ERR_INVALID_SERVPROV, st, 0, 0)
  else if env.loadOk = false then
    (WFS_ERR_INTERNAL_ERROR, st, 0, 0)
  else
    let m := st.nextModule
    let loaded := st.loadedModules ++ [m]
    match firstFreeSlot st.services with
    | none =>
      (WFS_ERR_INTERNAL_ERROR,
       { st with loadedModules := loaded.filter (fun x => x != m),
                 nextModule := st.nextModule + 1 }, 0, 0)
    | some i =>
      (WFS_SUCCESS,
       { services := st.services.set i (some ⟨1, m, traceLevel⟩),
         loadedModules := loaded,
         nextModule := st.nextModule + 1 },
       i + 1, 1)

/-- open_service (src/xfs_mgr/src/manager.rs lines 139-182): after the two
configuration lookups, a free slot is located, Service::new loads the
provider module, and the provider's WFPOpen is invoked through
Service::open (which sets the session's request id to 1).  If the provider
reports failure the function returns that result at once — the local
Service is dropped, unloading its module, and nothing was published.  Only
on success is the session published into the slot. -/
def openService (st : ProviderTable) (env : OpenEnv) (traceLevel : Nat) :
    Int × ProviderTable :=
  if env.configOk = false then
    (WFS_ERR_INVALID_SERVPROV, st)
  else
    match firstFreeSlot st.services with
    | none => (WFS_ERR_INTERNAL_ERROR, st)
    | some i =>
      if env.loadOk = false then
        (WFS_ERR_INTERNAL_ERROR, st)
      else
        let m := st.nextModule
        let loaded := st.loadedModules ++ [m]
        if env.providerOpenResult != WFS_SUCCESS then
          (env.providerOpenResult,
           { st with loadedModules := loaded.filter (fun x => x != m),
                     nextModule := st.nextModule + 1 })
        else
          (WFS_SUCCESS,
           { services := st.services.set i (some ⟨1, m, traceLevel⟩),
             loadedModules := loaded,
             nextModule := st.nextModule + 1 })

/-- close_service (src/xfs_mgr/src/manager.rs lines 184-193): the session
is looked up at index h_service (not h_service - 1); on a hit the
provider's close runs (incrementing the request id through
Service::get_request_id), and then the assignment
services[h_service - 1] = None runs — for h_service = 0 the index
arithmetic is out of bounds and the thread panics (modelled as none). -/
def closeService (table : List (Option MgrService)) (hService : Nat)
    (providerCloseRc : Int) : Option (Int × List (Option MgrService)) :=
  match table.get? hService with
  | some (some svc) =>
    if hService = 0 then none
    else
      let svc' := { svc with requestId := getRequestId svc.requestId }
      some (providerCloseRc, (table.set hService (some svc')).set (hService - 1) none)
  | _ => some (WFS_ERR_INVALID_HSERVICE, table)

/-! ## Timer slot tables (src/xfslib/src/supp.rs and src/xfslib/src/timer.rs) -/

/-- Number of timer slots in src/xfslib/src/supp.rs: (0..65535) yields
65535 slots. -/
def SUPP_TIMER_SLOTS : Nat := 65535

/-- Number of timer slots in src/xfslib/src/timer.rs: (1..WORD::MAX), i.e.
1..65535 exclusive, yields only 65534 slots. -/
def TIMER_TIMER_SLOTS : Nat := 65534

/-- kill_timer (src/xfslib/src/supp.rs lines 170-186): id 0 is rejected
with WFS_ERR_INVALID_TIMER; otherwise the slot id - 1 is atomically swapped
to empty — if it was already empty the call fails WFS_ERR_INVALID_TIMER,
else the platform timer is cancelled and the call succeeds.  A slot is
modelled by the Bool occupied; out-of-range indexing (impossible for WORD
ids against the 65535-entry table) would be a panic, modelled as none. -/
def suppKillTimer (timers : List Bool) (id : Nat) : Option (Int × List Bool) :=
  if id = 0 then some (WFS_ERR_INVALID_TIMER, timers)
  else
    match timers.get? (id - 1) with
    | none => none
    | some occupied =>
      if occupied then some (WFS_SUCCESS, timers.set (id - 1) false)
      else some (WFS_ERR_INVALID_TIMER, timers)

/-- kill_timer (src/xfslib/src/timer.rs lines 96-109): same logic, but the
slot vector has only TIMER_TIMER_SLOTS entries and the lookup
timers[timer_id] indexes without a bounds check, so an id past the table
panics (none). -/
def timerKillTimer (timers : List Bool) (id : Nat) : Option (Int × List Bool) :=
  if id = 0 then some (WFS_ERR_INVALID_TIMER, timers)
  else
    match timers.get? (id - 1) with
    | none => none
    | some occupied =>
      if occupied then some (WFS_SUCCESS, timers.set (id - 1) false)
      else some (WFS_ERR_INVALID_TIMER, timers)

/-! ## Heap lemmas and invariant preservation -/

theorem Allocation.listBytes_append (l : List Allocation) (a : Allocation) :
    Allocation.listBytes (l ++ [a]) = Allocation.listBytes l + a.totalBytes := by
  induction l with
  | nil => simp [Allocation.listBytes, Allocation.totalBytes]
  | cons x xs ih =>
    show Allocation.totalBytes x + Allocation.listBytes (xs ++ [a])
        = Allocation.totalBytes x + Allocation.listBytes xs + a.totalBytes
    rw [ih]
    omega

theorem Allocation.pushChild_totalBytes (r a : Allocation) :
    (r.pushChild a).totalBytes = r.totalBytes + a.totalBytes := by
  cases r with
  | mk p s f c =>
    simp [Allocation.pushChild, Allocation.totalBytes, Allocation.listBytes_append]
    omega

theorem Allocation.pushChild_ptr (r a : Allocation) : (r.pushChild a).ptr = r.ptr := by
  cases r
  rfl

theorem Allocation.pushChild_child (r a : Allocation) :
    (r.pushChild a).child = r.child ++ [a] := by
  cases r
  rfl

theorem map_push_id (t : List Allocation) (p : Nat) (a : Allocation)
    (hp : ∀ x ∈ t, x.ptr ≠ p) :
    t.map (fun r => if r.ptr == p then r.pushChild a else r) = t := by
  induction t with
  | nil => rfl
  | cons x xs ih =>
    have hx : ¬ (x.ptr == p) = true := by
      simpa using hp x (List.mem_cons_self x xs)
    simp only [List.map_cons, if_neg hx]
    rw [ih (fun y hy => hp y (List.mem_cons_of_mem x hy))]

theorem rootBytes_map_push (l : List Allocation) (p : Nat) (a : Allocation)
    (hnd : (l.map Allocation.ptr).Nodup) (pa : Allocation)
    (hfind : l.find? (fun r => r.ptr == p) = some pa) :
    ((l.map (fun r => if r.ptr == p then r.pushChild a else r)).map
        Allocation.totalBytes).sum
      = (l.map Allocation.totalBytes).sum + a.totalBytes := by
  induction l with
  | nil => simp [List.find?] at hfind
  | cons x xs ih =>
    by_cases hx : (x.ptr == p) = true
    · have hxs : ∀ y ∈ xs, y.ptr ≠ p := by
        intro y hy hcontra
        have hxptr : x.ptr = p := by simpa using hx
        exact (List.nodup_cons.mp hnd).1 (by
          rw [hxptr, ← hcontra]
          exact List.mem_map_of_mem Allocation.ptr hy)
      simp only [List.map_cons, if_pos hx, map_push_id xs p a hxs, List.sum_cons,
        Allocation.pushChild_totalBytes]
      omega
    · have hx0 : (x.ptr == p) = false := by simpa using hx
      have hfind' : xs.find? (fun r => r.ptr == p) = some pa := by
        simpa [List.find?_cons, hx0] using hfind
      have hnd' := (List.nodup_cons.mp hnd).2
      simp only [List.map_cons, if_neg hx, List.sum_cons, ih hnd' hfind']
      omega

theorem rootBytes_filter (l : List Allocation) (p : Nat)
    (hnd : (l.map Allocation.ptr).Nodup) (a : Allocation)
    (hfind : l.find? (fun r => r.ptr == p) = some a) :
    ((l.filter (fun r => r.ptr != p)).map Allocation.totalBytes).sum + a.totalBytes
      = (l.map Allocation.totalBytes).sum := by
  induction l with
  | nil => simp [List.find?] at hfind
  | cons x xs ih =>
    by_cases hx : (x.ptr == p) = true
    · have ha : a = x := by
        have := hfind
        simp only [List.find?_cons, hx] at this
        exact (Option.some_inj.mp this).symm
      have hxs : ∀ y ∈ xs, y.ptr ≠ p := by
        intro y hy hcontra
        have hxptr : x.ptr = p := by simpa using hx
        exact (List.nodup_cons.mp hnd).1 (by
          rw [hxptr, ← hcontra]
          exact List.mem_map_of_mem Allocation.ptr hy)
      have hfilter : xs.filter (fun r => r.ptr != p) = xs := by
        apply List.filter_eq_self.mpr
        intro y hy
        simpa using hxs y hy
      have hxbne : (x.ptr != p) = false := by
        simp only [bne]
        simpa using hx
      simp [List.filter_cons, hxbne, hfilter, ha]
      omega
    · have hx0 : (x.ptr == p) = false := by simpa using hx
      have hfind' : xs.find? (fun r => r.ptr == p) = some a := by
        simpa [List.find?_cons, hx0] using hfind
      have hnd' := (List.nodup_cons.mp hnd).2
      have hxbne : (x.ptr != p) = true := by
        simp only [bne]
        simpa using hx
      have hrec := ih hnd' hfind'
      simp [List.filter_cons, hxbne]
      omega

theorem Heap.findRoot_mem (h : Heap) (p : Nat) (a : Allocation)
    (hf : h.findRoot p = some a) : a ∈ h.allocations ∧ a.ptr = p := by
  unfold Heap.findRoot at hf
  exact ⟨List.mem_of_find?_eq_some hf, by simpa using List.find?_some hf⟩

theorem Heap.findRoot_eq_none_iff (h : Heap) (p : Nat) :
    h.findRoot p = none ↔ ∀ a ∈ h.allocations, a.ptr ≠ p := by
  unfold Heap.findRoot
  rw [List.find?_eq_none]
  constructor
  · intro hall a ha
    simpa using hall a ha
  · intro hall a ha
    simpa using hall a ha

theorem Heap.allocateBuffer_over (h : Heap) (size flags : Nat)
    (hq : MAX_HEAP_SIZE < h.totalBytes + size) :
    h.allocateBuffer size flags = (.error WFS_ERR_OUT_OF_MEMORY, h) := by
  unfold Heap.allocateBuffer Heap.tryAllocate
  simp [hq]

theorem Heap.allocateBuffer_ok (h : Heap) (size flags : Nat)
    (hq : ¬ MAX_HEAP_SIZE < h.totalBytes + size) :
    h.allocateBuffer size flags =
      (.ok h.nextPtr,
       ⟨Allocation.mk h.nextPtr size flags [] :: h.allocations,
        h.totalBytes + size, h.nextPtr + 1⟩) := by
  unfold Heap.allocateBuffer Heap.tryAllocate
  simp [hq, Allocation.ptr]

theorem Heap.allocateMore_noparent (h : Heap) (size parent : Nat)
    (hf : h.findRoot parent = none) :
    h.allocateMore size parent = (.error WFS_ERR_INVALID_BUFFER, h) := by
  unfold Heap.allocateMore
  simp [hf]

theorem Heap.allocateMore_over (h : Heap) (size parent : Nat) (pa : Allocation)
    (hf : h.findRoot parent = some pa)
    (hq : MAX_HEAP_SIZE < h.totalBytes + size) :
    h.allocateMore size parent = (.error WFS_ERR_OUT_OF_MEMORY, h) := by
  unfold Heap.allocateMore Heap.tryAllocate
  simp [hf, hq]

theorem Heap.allocateMore_ok (h : Heap) (size parent : Nat) (pa : Allocation)
    (hf : h.findRoot parent = some pa)
    (hq : ¬ MAX_HEAP_SIZE < h.totalBytes + size) :
    h.allocateMore size parent =
      (.ok h.nextPtr,
       ⟨h.allocations.map (fun r =>
          if r.ptr == parent then r.pushChild (.mk h.nextPtr size pa.flags []) else r),
        h.totalBytes + size, h.nextPtr + 1⟩) := by
  unfold Heap.allocateMore Heap.tryAllocate
  simp [hf, hq, Allocation.ptr]

theorem Heap.deallocate_none (h : Heap) (p : Nat)
    (hf : h.findRoot p = none) :
    h.deallocate p = (.error WFS_ERR_INVALID_BUFFER, h) := by
  unfold Heap.deallocate
  simp [hf]

theorem Heap.deallocate_some (h : Heap) (p : Nat) (a : Allocation)
    (hf : h.findRoot p = some a) :
    h.deallocate p =
      (.ok (),
       ⟨h.allocations.filter (fun r => r.ptr != p),
        h.totalBytes - a.totalBytes, h.nextPtr⟩) := by
  unfold Heap.deallocate
  simp [hf]

theorem Allocation.ptr_mk (p s f : Nat) (c : List Allocation) :
    (Allocation.mk p s f c).ptr = p := rfl

theorem Allocation.child_mk (p s f : Nat) (c : List Allocation) :
    (Allocation.mk p s f c).child = c := rfl

theorem Allocation.totalBytes_mk (p s f : Nat) (c : List Allocation) :
    (Allocation.mk p s f c).totalBytes = s + Allocation.listBytes c := rfl

theorem Allocation.listBytes_nil : Allocation.listBytes [] = 0 := rfl

theorem Heap.Inv.start : Heap.Inv Heap.new := by
  refine ⟨?_, ?_, ?_, ?_, ?_⟩ <;> simp [Heap.new, Heap.rootBytes]

theorem Heap.Inv.allocateBuffer (h : Heap) (size flags : Nat) (hi : h.Inv) :
    ((h.allocateBuffer size flags).2).Inv := by
  by_cases hq : MAX_HEAP_SIZE < h.totalBytes + size
  · rw [Heap.allocateBuffer_over h size flags hq]
    exact hi
  · rw [Heap.allocateBuffer_ok h size flags hq]
    show Heap.Inv ⟨Allocation.mk h.nextPtr size flags [] :: h.allocations,
      h.totalBytes + size, h.nextPtr + 1⟩
    refine ⟨?_, ?_, ?_, ?_, ?_⟩
    · show h.totalBytes + size
        = ((Allocation.mk h.nextPtr size flags [] :: h.allocations).map
            Allocation.totalBytes).sum
      have hsum := hi.sum_eq
      unfold Heap.rootBytes at hsum
      simp only [List.map_cons, List.sum_cons, Allocation.totalBytes_mk,
        Allocation.listBytes_nil]
      omega
    · intro a ha
      show a.ptr < h.nextPtr + 1
      rcases List.mem_cons.mp ha with rfl | ha2
      · rw [Allocation.ptr_mk]
        omega
      · exact Nat.lt_succ_of_lt (hi.root_lt a ha2)
    · intro a ha c hc
      show c.ptr < h.nextPtr + 1
      rcases List.mem_cons.mp ha with rfl | ha2
      · rw [Allocation.child_mk] at hc
        simp at hc
      · exact Nat.lt_succ_of_lt (hi.child_lt a ha2 c hc)
    · show ((Allocation.mk h.nextPtr size flags [] :: h.allocations).map
          Allocation.ptr).Nodup
      rw [List.map_cons, Allocation.ptr_mk]
      refine List.nodup_cons.mpr ⟨?_, hi.nodup⟩
      intro hmem
      rcases List.mem_map.mp hmem with ⟨a, ha, hpa⟩
      have := hi.root_lt a ha
      omega
    · intro a ha c hc b hb
      show c.ptr ≠ b.ptr
      rcases List.mem_cons.mp ha with rfl | ha2
      · rw [Allocation.child_mk] at hc
        simp at hc
      · rcases List.mem_cons.mp hb with rfl | hb2
        · rw [Allocation.ptr_mk]
          have := hi.child_lt a ha2 c hc
          omega
        · exact hi.disj a ha2 c hc b hb2

theorem Heap.Inv.allocateMore (h : Heap) (size parent : Nat) (hi : h.Inv) :
    ((h.allocateMore size parent).2).Inv := by
  rcases hfr : h.findRoot parent with _ | pa
  · rw [Heap.allocateMore_noparent h size parent hfr]
    exact hi
  · by_cases hq : MAX_HEAP_SIZE < h.totalBytes + size
    · rw [Heap.allocateMore_over h size parent pa hfr hq]
      exact hi
    · rw [Heap.allocateMore_ok h size parent pa hfr hq]
      show Heap.Inv ⟨h.allocations.map (fun r =>
          if r.ptr == parent
          then r.pushChild (.mk h.nextPtr size pa.flags []) else r),
        h.totalBytes + size, h.nextPtr + 1⟩
      have hfind : h.allocations.find? (fun r => r.ptr == parent) = some pa := hfr
      have hptr_eq : ∀ r : Allocation,
          ((if r.ptr == parent
            then r.pushChild (.mk h.nextPtr size pa.flags []) else r)).ptr = r.ptr := by
        intro r
        by_cases hr : (r.ptr == parent) = true
        · rw [if_pos hr, Allocation.pushChild_ptr]
        · rw [if_neg hr]
      have hmap_ptr :
          ((h.allocations.map (fun r =>
            if r.ptr == parent
            then r.pushChild (.mk h.nextPtr size pa.flags []) else r)).map
              Allocation.ptr) = h.allocations.map Allocation.ptr := by
        rw [List.map_map]
        exact List.map_congr_left (fun r _ => hptr_eq r)
      refine ⟨?_, ?_, ?_, ?_, ?_⟩
      · show h.totalBytes + size
          = ((h.allocations.map (fun r =>
              if r.ptr == parent
              then r.pushChild (.mk h.nextPtr size pa.flags []) else r)).map
                Allocation.totalBytes).sum
        have hsum := rootBytes_map_push h.allocations parent
          (.mk h.nextPtr size pa.flags []) hi.nodup pa hfind
        have hs2 := hi.sum_eq
        unfold Heap.rootBytes at hs2
        simp only [Allocation.totalBytes_mk, Allocation.listBytes_nil] at hsum
        omega
      · intro a ha
        show a.ptr < h.nextPtr + 1
        rcases List.mem_map.mp ha with ⟨r, hr, rfl⟩
        rw [hptr_eq r]
        exact Nat.lt_succ_of_lt (hi.root_lt r hr)
      · intro a ha c hc
        show c.ptr < h.nextPtr + 1
        rcases List.mem_map.mp ha with ⟨r, hr, rfl⟩
        by_cases hrp : (r.ptr == parent) = true
        · rw [if_pos hrp, Allocation.pushChild_child] at hc
          rcases List.mem_append.mp hc with hc2 | hc2
          · exact Nat.lt_succ_of_lt (hi.child_lt r hr c hc2)
          · rcases List.mem_singleton.mp hc2 with rfl
            rw [Allocation.ptr_mk]
            omega
        · rw [if_neg hrp] at hc
          exact Nat.lt_succ_of_lt (hi.child_lt r hr c hc)
      · show ((h.allocations.map (fun r =>
            if r.ptr == parent
            then r.pushChild (.mk h.nextPtr size pa.flags []) else r)).map
              Allocation.ptr).Nodup
        rw [hmap_ptr]
        exact hi.nodup
      · intro a ha c hc b hb
        show c.ptr ≠ b.ptr
        rcases List.mem_map.mp ha with ⟨r, hr, rfl⟩
        rcases List.mem_map.mp hb with ⟨rb, hrb, rfl⟩
        rw [hptr_eq rb]
        have hbound : rb.ptr < h.nextPtr := hi.root_lt rb hrb
        by_cases hrp : (r.ptr == parent) = true
        · rw [if_pos hrp, Allocation.pushChild_child] at hc
          rcases List.mem_append.mp hc with hc2 | hc2
          · exact hi.disj r hr c hc2 rb hrb
          · rcases List.mem_singleton.mp hc2 with rfl
            rw [Allocation.ptr_mk]
            omega
        · rw [if_neg hrp] at hc
          exact hi.disj r hr c hc rb hrb

theorem Heap.Inv.deallocate (h : Heap) (p : Nat) (hi : h.Inv) :
    ((h.deallocate p).2).Inv := by
  rcases hfr : h.findRoot p with _ | a
  · rw [Heap.deallocate_none h p hfr]
    exact hi
  · rw [Heap.deallocate_some h p a hfr]
    show Heap.Inv ⟨h.allocations.filter (fun r => r.ptr != p),
      h.totalBytes - a.totalBytes, h.nextPtr⟩
    have hfind : h.allocations.find? (fun r => r.ptr == p) = some a := hfr
    have hsum := rootBytes_filter h.allocations p hi.nodup a hfind
    have hsub : ∀ x, x ∈ h.allocations.filter (fun r => r.ptr != p) →
        x ∈ h.allocations := fun x hx => (List.mem_filter.mp hx).1
    refine ⟨?_, ?_, ?_, ?_, ?_⟩
    · show h.totalBytes - a.totalBytes
        = ((h.allocations.filter (fun r => r.ptr != p)).map Allocation.totalBytes).sum
      have hs2 := hi.sum_eq
      unfold Heap.rootBytes at hs2
      omega
    · intro x hx
      exact hi.root_lt x (hsub x hx)
    · intro x hx c hc
      exact hi.child_lt x (hsub x hx) c hc
    · exact hi.nodup.sublist (List.Sublist.map Allocation.ptr
        (List.filter_sublist h.allocations))
    · intro x hx c hc b hb
      exact hi.disj x (hsub x hx) c hc b (hsub b hb)

theorem Heap.Inv.step (h : Heap) (op : HeapOp) (hi : h.Inv) : (h.step op).Inv := by
  cases op with
  | alloc s f => exact Heap.Inv.allocateBuffer h s f hi
  | allocMore p s => exact Heap.Inv.allocateMore h s p hi
  | free p => exact Heap.Inv.deallocate h p hi

theorem Heap.Inv.foldl (ops : List HeapOp) (h : Heap) (hi : h.Inv) :
    (ops.foldl Heap.step h).Inv := by
  induction ops generalizing h with
  | nil => exact hi
  | cons op rest ih => exact ih (h.step op) (Heap.Inv.step h op hi)

theorem Heap.Inv.run (ops : List HeapOp) : (Heap.run ops).Inv :=
  Heap.Inv.foldl ops Heap.new Heap.Inv.start

/-! ## Claim C6 -/

/-- Claim C6: for every allocate or allocate_more call whose requested size
would push the shared outstanding-bytes counter over the fixed heap quota,
the call fails with WFS_ERR_OUT_OF_MEMORY and the heap — in particular the
shared counter — is exactly as before the call; reservation is
all-or-nothing. -/
theorem c6_quota_all_or_nothing (h : Heap) (size flags parent : Nat)
    (hover : MAX_HEAP_SIZE < h.totalBytes + size) :
    (h.allocateBuffer size flags).1 = Except.error WFS_ERR_OUT_OF_MEMORY ∧
    (h.allocateBuffer size flags).2 = h ∧
    (∀ pa, h.findRoot parent = some pa →
      (h.allocateMore size parent).1 = Except.error WFS_ERR_OUT_OF_MEMORY ∧
      (h.allocateMore size parent).2 = h) := by
  refine ⟨?_, ?_, ?_⟩
  · rw [Heap.allocateBuffer_over h size flags hover]
  · rw [Heap.allocateBuffer_over h size flags hover]
  · intro pa hpa
    rw [Heap.allocateMore_over h size parent pa hpa hover]
    exact ⟨rfl, rfl⟩

/-- Witness for C6 at a concrete heap holding one 10-byte root with
pointer 1 and a request of a full extra quota. -/
theorem c6_witness :
    MAX_HEAP_SIZE < (Heap.run [HeapOp.alloc 10 7]).totalBytes + 1000000000 ∧
    (((Heap.run [HeapOp.alloc 10 7]).allocateBuffer 1000000000 0).1
        = Except.error WFS_ERR_OUT_OF_MEMORY ∧
      ((Heap.run [HeapOp.alloc 10 7]).allocateBuffer 1000000000 0).2
        = Heap.run [HeapOp.alloc 10 7] ∧
      (∀ pa, (Heap.run [HeapOp.alloc 10 7]).findRoot 1 = some pa →
        ((Heap.run [HeapOp.alloc 10 7]).allocateMore 1000000000 1).1
          = Except.error WFS_ERR_OUT_OF_MEMORY ∧
        ((Heap.run [HeapOp.alloc 10 7]).allocateMore 1000000000 1).2
          = Heap.run [HeapOp.alloc 10 7])) :=
  ⟨by decide,
   c6_quota_all_or_nothing (Heap.run [HeapOp.alloc 10 7]) 1000000000 0 1 (by decide)⟩

/-! ## Claim C7 -/

/-- Claim C7: free succeeds only for live root allocations — on every heap
reachable from Heap::new, freeing the pointer of a child allocation, or a
pointer that is not (or no longer) a live root, fails with
WFS_ERR_INVALID_BUFFER and leaves the heap unchanged. -/
theorem c7_free_requires_live_root (ops : List HeapOp) (p : Nat)
    (hp : (Heap.run ops).isChild p = true ∨ (Heap.run ops).findRoot p = none) :
    ((Heap.run ops).deallocate p).1 = Except.error WFS_ERR_INVALID_BUFFER ∧
    ((Heap.run ops).deallocate p).2 = Heap.run ops := by
  have hnone : (Heap.run ops).findRoot p = none := by
    rcases hp with hchild | hnone
    · have hi := Heap.Inv.run ops
      rw [Heap.findRoot_eq_none_iff]
      intro b hb hbp
      unfold Heap.isChild at hchild
      rcases List.any_eq_true.mp hchild with ⟨a, ha, hca⟩
      rcases List.any_eq_true.mp hca with ⟨c, hc, hcp⟩
      have hcptr : c.ptr = p := by simpa using hcp
      exact (hi.disj a ha c hc b hb) (by rw [hcptr, hbp])
    · exact hnone
  rw [Heap.deallocate_none _ p hnone]
  exact ⟨rfl, rfl⟩

/-- Witness for C7: after alloc (root pointer 1) and allocate_more (child
pointer 2), freeing the child pointer 2 fails and changes nothing. -/
theorem c7_witness :
    (Heap.run [HeapOp.alloc 10 0, HeapOp.allocMore 1 5]).isChild 2 = true ∧
    ((Heap.run [HeapOp.alloc 10 0, HeapOp.allocMore 1 5]).deallocate 2).1
      = Except.error WFS_ERR_INVALID_BUFFER ∧
    ((Heap.run [HeapOp.alloc 10 0, HeapOp.allocMore 1 5]).deallocate 2).2
      = Heap.run [HeapOp.alloc 10 0, HeapOp.allocMore 1 5] :=
  ⟨by decide,
   c7_free_requires_live_root [HeapOp.alloc 10 0, HeapOp.allocMore 1 5] 2
     (Or.inl (by decide))⟩

/-! ## Claim C8 -/

/-- Claim C8: for every sequence of allocate / allocate_more / free calls,
once no root allocation is left the shared byte counter is zero — freeing a
root returns the quota of the root and of all its descendants. -/
theorem c8_counter_returns_to_zero (ops : List HeapOp)
    (hempty : (Heap.run ops).allocations = []) :
    (Heap.run ops).totalBytes = 0 := by
  have hi := Heap.Inv.run ops
  rw [hi.sum_eq]
  unfold Heap.rootBytes
  rw [hempty]
  rfl

/-- Witness for C8: alloc 7 bytes (root 1), allocate_more 5 bytes from it
(child 2), free the root — the counter is back to zero. -/
theorem c8_witness :
    (Heap.run [HeapOp.alloc 7 0, HeapOp.allocMore 1 5, HeapOp.free 1]).allocations
      = [] ∧
    (Heap.run [HeapOp.alloc 7 0, HeapOp.allocMore 1 5, HeapOp.free 1]).totalBytes
      = 0 :=
  ⟨rfl, c8_counter_returns_to_zero [HeapOp.alloc 7 0, HeapOp.allocMore 1 5, HeapOp.free 1] rfl⟩

/-! ## Blocked-thread lemmas and claims C2, C4, C5 -/

theorem find?_map_update (l : List (Nat × Bool)) (tid : Nat) (f : Bool)
    (hb : l.any (fun e => e.1 == tid) = true) :
    (l.map (fun e => if e.1 == tid then (tid, f) else e)).find? (fun e => e.1 == tid)
      = some (tid, f) := by
  induction l with
  | nil => simp at hb
  | cons x xs ih =>
    rw [List.map_cons]
    by_cases hx : (x.1 == tid) = true
    · rw [if_pos hx, List.find?_cons_of_pos _ (by simp)]
    · have hb' : xs.any (fun e => e.1 == tid) = true := by
        rcases List.any_eq_true.mp hb with ⟨e, he, hep⟩
        rcases List.mem_cons.mp he with rfl | he'
        · exact absurd hep hx
        · exact List.any_eq_true.mpr ⟨e, he', hep⟩
      have hx0 : (x.1 == tid) = false := by simpa using hx
      rw [if_neg hx, List.find?_cons]
      simp only [hx0]
      exact ih hb'

theorem insertThread_cancelFlag (s : MgrState) (tid : Nat) (f : Bool)
    (hb : s.containsThread tid = true) :
    (s.insertThread tid f).cancelFlag tid = f ∧
    (s.insertThread tid f).containsThread tid = true := by
  unfold MgrState.insertThread
  rw [if_pos hb]
  have hfind := find?_map_update s.blockedThreads tid f hb
  constructor
  · unfold MgrState.cancelFlag
    rw [hfind]
  · unfold MgrState.containsThread
    apply List.any_eq_true.mpr
    exact ⟨(tid, f), List.mem_of_find?_eq_some hfind, by simp⟩

/-- Claim C4: while a thread has a blocking call outstanding (it is in
BLOCKED_THREADS), any further synchronous / blocking-class call from that
same thread returns WFS_ERR_OP_IN_PROGRESS with the manager state unchanged
and the provider never dispatched. -/
theorem c4_second_blocking_call_rejected (st : MgrState) (tid : Nat) (r : Int)
    (o : WaitOutcome) (hs : st.started = true) (hb : st.containsThread tid = true) :
    syncCall st tid r o = (WFS_ERR_OP_IN_PROGRESS, st, false) := by
  unfold syncCall
  simp [hs, hb]

/-- Witness for C4: thread 7 is blocked; a WFSExecute-shaped call from
thread 7 is rejected untouched. -/
theorem c4_witness :
    (MgrState.mk true [(7, false)]).started = true ∧
    (MgrState.mk true [(7, false)]).containsThread 7 = true ∧
    syncCall (MgrState.mk true [(7, false)]) 7 0 (WaitOutcome.completed 0)
      = (WFS_ERR_OP_IN_PROGRESS, MgrState.mk true [(7, false)], false) :=
  ⟨rfl, by decide,
   c4_second_blocking_call_rejected (MgrState.mk true [(7, false)]) 7 0
     (WaitOutcome.completed 0) rfl (by decide)⟩

/-- Claim C2: evaluation of the synchronous wrapper at its failing inputs.
On a fresh started manager, thread 7 runs a synchronous call whose wait
completes normally: the wrapper returns, yet thread 7 is still in
BLOCKED_THREADS.  The same happens when the asynchronous form fails
immediately (here with WFS_ERR_INVALID_HSERVICE, which is propagated).
Only the cancellation path removes the thread.  This contradicts the claim
that the entry is removed on every return path. -/
theorem c2_thread_left_blocked :
    ((syncCall (MgrState.mk true []) 7 WFS_SUCCESS
        (WaitOutcome.completed WFS_SUCCESS)).2.1.containsThread 7 = true) ∧
    ((syncCall (MgrState.mk true []) 7 WFS_ERR_INVALID_HSERVICE
        (WaitOutcome.completed WFS_SUCCESS)).1 = WFS_ERR_INVALID_HSERVICE) ∧
    ((syncCall (MgrState.mk true []) 7 WFS_ERR_INVALID_HSERVICE
        (WaitOutcome.completed WFS_SUCCESS)).2.1.containsThread 7 = true) ∧
    ((syncCall (MgrState.mk true []) 7 WFS_SUCCESS
        WaitOutcome.canceled).2.1.containsThread 7 = false) := by
  refine ⟨?_, ?_, ?_, ?_⟩ <;> decide

/-- Claim C5 counterexample: with no blocking call in progress for thread 5,
WFSCancelBlockingCall still reports WFS_SUCCESS — never
WFS_ERR_NO_BLOCKING_CALL. -/
theorem c5_counterexample :
    (MgrState.mk true []).containsThread 5 = false ∧
    (cancelBlockingCall (MgrState.mk true []) 5 9).1 = WFS_SUCCESS ∧
    (cancelBlockingCall (MgrState.mk true []) 5 9).1 ≠ WFS_ERR_NO_BLOCKING_CALL := by
  refine ⟨rfl, rfl, by decide⟩

/-- Claim C5 (amended): WFSCancelBlockingCall resolves thread id 0 to the
caller, sets the cancel flag for the named thread exactly when that thread
is in BLOCKED_THREADS (leaving it in the set), leaves the state untouched
otherwise, and returns WFS_SUCCESS in both cases. -/
theorem c5_cancel_sets_flag_iff_blocked (st : MgrState) (dwThreadID selfId : Nat)
    (hs : st.started = true) :
    (cancelBlockingCall st dwThreadID selfId).1 = WFS_SUCCESS ∧
    (st.containsThread (if dwThreadID == 0 then selfId else dwThreadID) = true →
      (cancelBlockingCall st dwThreadID selfId).2.cancelFlag
        (if dwThreadID == 0 then selfId else dwThreadID) = true ∧
      (cancelBlockingCall st dwThreadID selfId).2.containsThread
        (if dwThreadID == 0 then selfId else dwThreadID) = true) ∧
    (st.containsThread (if dwThreadID == 0 then selfId else dwThreadID) = false →
      (cancelBlockingCall st dwThreadID selfId).2 = st) := by
  by_cases hb : st.containsThread (if dwThreadID == 0 then selfId else dwThreadID) = true
  · have e1 : cancelBlockingCall st dwThreadID selfId
        = (WFS_SUCCESS,
           st.insertThread (if dwThreadID == 0 then selfId else dwThreadID) true) := by
      unfold cancelBlockingCall
      rw [if_neg (by simp [hs]), if_pos hb]
    rw [e1]
    refine ⟨rfl, fun _ => ?_, fun hfalse => by rw [hb] at hfalse; cases hfalse⟩
    exact insertThread_cancelFlag st
      (if dwThreadID == 0 then selfId else dwThreadID) true hb
  · have e1 : cancelBlockingCall st dwThreadID selfId = (WFS_SUCCESS, st) := by
      unfold cancelBlockingCall
      rw [if_neg (by simp [hs]), if_neg hb]
    rw [e1]
    exact ⟨rfl, fun htrue => absurd htrue hb, fun _ => rfl⟩

/-- Witness for C5: thread 3 is blocked with a clear flag; cancelling
thread 3 succeeds and sets its cancel flag. -/
theorem c5_witness :
    (MgrState.mk true [(3, false)]).started = true ∧
    (MgrState.mk true [(3, false)]).containsThread 3 = true ∧
    (cancelBlockingCall (MgrState.mk true [(3, false)]) 3 1).1 = WFS_SUCCESS ∧
    (cancelBlockingCall (MgrState.mk true [(3, false)]) 3 1).2.cancelFlag 3 = true :=
  ⟨rfl, by decide,
   (c5_cancel_sets_flag_iff_blocked (MgrState.mk true [(3, false)]) 3 1 rfl).1,
   ((c5_cancel_sets_flag_iff_blocked (MgrState.mk true [(3, false)]) 3 1 rfl).2.1
     (by decide)).1⟩

/-! ## Claim C9 -/

theorem requestIdAfter_eq_self (n : Nat) (hn : n < UINT32_MOD) : requestIdAfter n = n := by
  induction n with
  | zero => rfl
  | succ k ih =>
    have hk : k < UINT32_MOD := Nat.lt_of_succ_lt hn
    unfold requestIdAfter
    rw [ih hk]
    unfold getRequestId
    exact Nat.mod_eq_of_lt hn

/-- Claim C9 counterexample: the per-session counter is a wrapping u32, so
at counter value 2^32 - 1 the next generated request id is 0, which is not
greater than its predecessor — request ids are not strictly increasing over
an unbounded session lifetime. -/
theorem c9_counterexample :
    getRequestId (UINT32_MOD - 1) = 0 ∧
    ¬ (UINT32_MOD - 1 < getRequestId (UINT32_MOD - 1)) := by
  refine ⟨by decide, by decide⟩

/-- Claim C9 (amended): as long as a session dispatches fewer than 2^32
operations, each dispatch increments the counter by exactly one, the ids
are strictly increasing, and every dispatch through the session table
writes the freshly incremented id to the caller's request-id output and
stores it back into the session's slot exactly once. -/
theorem c9_request_ids_increase (c i j hsvc : Nat)
    (table : List (Option MgrService)) (svc : MgrService) (symbolOk : Bool)
    (rc : Int) (hc : c + 1 < UINT32_MOD) (hij : i < j) (hj : j < UINT32_MOD)
    (hh : 1 ≤ hsvc) (hlook : table.get? (hsvc - 1) = some (some svc)) :
    getRequestId c = c + 1 ∧ c < getRequestId c ∧
    requestIdAfter i < requestIdAfter j ∧
    (wfsAsyncDispatch table hsvc symbolOk rc).2.2
      = some (getRequestId svc.requestId) ∧
    (wfsAsyncDispatch table hsvc symbolOk rc).2.1
      = table.set (hsvc - 1) (some { svc with requestId := getRequestId svc.requestId }) := by
  have hinc : getRequestId c = c + 1 := Nat.mod_eq_of_lt hc
  have h0 : ¬ (hsvc == 0) = true := by
    simp only [Nat.beq_eq_true_eq]
    omega
  have hreq : getServiceReq table hsvc
      = some ({ svc with requestId := getRequestId svc.requestId },
              table.set (hsvc - 1)
                (some { svc with requestId := getRequestId svc.requestId })) := by
    unfold getServiceReq
    rw [if_neg h0, hlook]
  refine ⟨hinc, by omega, ?_, ?_, ?_⟩
  · rw [requestIdAfter_eq_self i (by omega), requestIdAfter_eq_self j hj]
    exact hij
  · unfold wfsAsyncDispatch
    rw [hreq]
    cases symbolOk <;> rfl
  · unfold wfsAsyncDispatch
    rw [hreq]
    cases symbolOk <;> rfl

/-- Witness for C9 on a one-session table whose counter stands at 4:
dispatching writes id 5 and stores it, and small request ids increase. -/
theorem c9_witness :
    (5 + 1 < UINT32_MOD ∧ (2:Nat) < 7 ∧ 7 < UINT32_MOD ∧
      ([some (MgrService.mk 4 100 0)] : List (Option MgrService)).get? 0
        = some (some (MgrService.mk 4 100 0))) ∧
    (getRequestId 5 = 5 + 1 ∧ (5:Nat) < getRequestId 5 ∧
      requestIdAfter 2 < requestIdAfter 7 ∧
      (wfsAsyncDispatch [some (MgrService.mk 4 100 0)] 1 true 0).2.2
        = some (getRequestId 4)) :=
  ⟨⟨by decide, by decide, by decide, rfl⟩,
   (c9_request_ids_increase 5 2 7 1 [some (MgrService.mk 4 100 0)]
      (MgrService.mk 4 100 0) true 0 (by decide) (by decide) (by decide)
      (by decide) rfl).1,
   (c9_request_ids_increase 5 2 7 1 [some (MgrService.mk 4 100 0)]
      (MgrService.mk 4 100 0) true 0 (by decide) (by decide) (by decide)
      (by decide) rfl).2.1,
   (c9_request_ids_increase 5 2 7 1 [some (MgrService.mk 4 100 0)]
      (MgrService.mk 4 100 0) true 0 (by decide) (by decide) (by decide)
      (by decide) rfl).2.2.1,
   (c9_request_ids_increase 5 2 7 1 [some (MgrService.mk 4 100 0)]
      (MgrService.mk 4 100 0) true 0 (by decide) (by decide) (by decide)
      (by decide) rfl).2.2.2.1⟩

/-! ## Claim C1 -/

theorem filter_ne_append_self (l : List Nat) (m : Nat) (hm : m ∉ l) :
    (l ++ [m]).filter (fun x => x != m) = l := by
  rw [List.filter_append]
  have h1 : l.filter (fun x => x != m) = l := by
    apply List.filter_eq_self.mpr
    intro x hx
    simp only [bne_iff_ne, ne_eq, decide_eq_true_eq]
    exact fun hxm => hm (hxm ▸ hx)
  have h2 : ([m].filter (fun x => x != m)) = ([] : List Nat) := by simp
  rw [h1, h2, List.append_nil]

/-- Claim C1 counterexample: both configuration lookups succeed, the module
loads, and the provider's own WFPOpen reports WFS_ERR_HARDWARE_ERROR — yet
WFSAsyncOpen (src/xfs_mgr/src/lib.rs) returns WFS_SUCCESS, not the
provider's error, and the published session slot stays occupied with its
module still loaded: nothing is cleaned up on this path. -/
theorem c1_counterexample :
    (wfsAsyncOpen (ProviderTable.mk [none] [] 100)
        (OpenEnv.mk true true WFS_ERR_HARDWARE_ERROR) 0).1 = WFS_SUCCESS ∧
    (wfsAsyncOpen (ProviderTable.mk [none] [] 100)
        (OpenEnv.mk true true WFS_ERR_HARDWARE_ERROR) 0).1
      ≠ WFS_ERR_HARDWARE_ERROR ∧
    (wfsAsyncOpen (ProviderTable.mk [none] [] 100)
        (OpenEnv.mk true true WFS_ERR_HARDWARE_ERROR) 0).2.1.services
      = [some (MgrService.mk 1 100 0)] ∧
    (wfsAsyncOpen (ProviderTable.mk [none] [] 100)
        (OpenEnv.mk true true WFS_ERR_HARDWARE_ERROR) 0).2.1.loadedModules
      = [100] := by
  refine ⟨rfl, by decide, rfl, rfl⟩

/-- Claim C1 (amended): in open_service (src/xfs_mgr/src/manager.rs) a
provider-open failure returns the provider's error with no session
published — the slot search saw a free slot but the session is only
published after a successful provider open — and the freshly loaded module
is released again by the drop of the local Service; in WFSAsyncOpen
(src/xfs_mgr/src/lib.rs) the provider's return code is instead discarded:
the call returns WFS_SUCCESS and the session it published stays in the
table. -/
theorem c1_open_failure_cleanup (st : ProviderTable) (env : OpenEnv) (tl i : Nat)
    (hcfg : env.configOk = true) (hload : env.loadOk = true)
    (hfree : firstFreeSlot st.services = some i)
    (hfresh : st.nextModule ∉ st.loadedModules)
    (hfail : env.providerOpenResult ≠ WFS_SUCCESS) :
    (openService st env tl).1 = env.providerOpenResult ∧
    (openService st env tl).2.services = st.services ∧
    (openService st env tl).2.loadedModules = st.loadedModules ∧
    (wfsAsyncOpen st env tl).1 = WFS_SUCCESS ∧
    (wfsAsyncOpen st env tl).2.1.services
      = st.services.set i (some (MgrService.mk 1 st.nextModule tl)) := by
  have hbne : (env.providerOpenResult != WFS_SUCCESS) = true := bne_iff_ne.mpr hfail
  have hopen : openService st env tl
      = (env.providerOpenResult,
         { st with
           loadedModules :=
             (st.loadedModules ++ [st.nextModule]).filter (fun x => x != st.nextModule),
           nextModule := st.nextModule + 1 }) := by
    unfold openService
    simp [hcfg, hload, hfree, hbne]
  have hasync : wfsAsyncOpen st env tl
      = (WFS_SUCCESS,
         { services := st.services.set i (some (MgrService.mk 1 st.nextModule tl)),
           loadedModules := st.loadedModules ++ [st.nextModule],
           nextModule := st.nextModule + 1 },
         i + 1, 1) := by
    unfold wfsAsyncOpen
    simp [hcfg, hload, hfree]
  rw [hopen, hasync]
  refine ⟨rfl, rfl, ?_, rfl, rfl⟩
  exact filter_ne_append_self st.loadedModules st.nextModule hfresh

/-- Witness for C1 on an empty one-slot table with fresh module id 100 and
a provider whose Open fails with WFS_ERR_HARDWARE_ERROR. -/
theorem c1_witness :
    ((OpenEnv.mk true true WFS_ERR_HARDWARE_ERROR).configOk = true ∧
      firstFreeSlot (ProviderTable.mk [none] [] 100).services = some 0 ∧
      (100:Nat) ∉ (ProviderTable.mk [none] [] 100).loadedModules ∧
      (OpenEnv.mk true true WFS_ERR_HARDWARE_ERROR).providerOpenResult
        ≠ WFS_SUCCESS) ∧
    ((openService (ProviderTable.mk [none] [] 100)
        (OpenEnv.mk true true WFS_ERR_HARDWARE_ERROR) 0).1
      = WFS_ERR_HARDWARE_ERROR ∧
     (openService (ProviderTable.mk [none] [] 100)
        (OpenEnv.mk true true WFS_ERR_HARDWARE_ERROR) 0).2.services = [none] ∧
     (openService (ProviderTable.mk [none] [] 100)
        (OpenEnv.mk true true WFS_ERR_HARDWARE_ERROR) 0).2.loadedModules = []) :=
  ⟨⟨rfl, rfl, by simp, by decide⟩,
   (c1_open_failure_cleanup (ProviderTable.mk [none] [] 100)
      (OpenEnv.mk true true WFS_ERR_HARDWARE_ERROR) 0 0 rfl rfl rfl (by simp)
      (by decide)).1,
   (c1_open_failure_cleanup (ProviderTable.mk [none] [] 100)
      (OpenEnv.mk true true WFS_ERR_HARDWARE_ERROR) 0 0 rfl rfl rfl (by simp)
      (by decide)).2.1,
   (c1_open_failure_cleanup (ProviderTable.mk [none] [] 100)
      (OpenEnv.mk true true WFS_ERR_HARDWARE_ERROR) 0 0 rfl rfl rfl (by simp)
      (by decide)).2.2.1⟩

/-! ## Claim C3 -/

/-- Claim C3: evaluation at the spec's own scenario (session in slot 0,
handle 1).  WFSAsyncClose (src/xfs_mgr/src/lib.rs) forwards the provider's
return code but never releases the slot — a second close on the same handle
dispatches to the provider again instead of failing with
WFS_ERR_INVALID_HSERVICE.  close_service (src/xfs_mgr/src/manager.rs) looks
the session up at index h_service but clears index h_service - 1: for
handle 1 it reports WFS_ERR_INVALID_HSERVICE without touching the open
session, with two occupied slots it closes slot 1 but clears slot 0, and
for handle 0 with slot 0 occupied the index arithmetic panics. -/
theorem c3_close_slot_never_released :
    (wfsAsyncDispatch [some (MgrService.mk 1 100 0)] 1 true
        WFS_ERR_HARDWARE_ERROR).1 = WFS_ERR_HARDWARE_ERROR ∧
    (wfsAsyncDispatch [some (MgrService.mk 1 100 0)] 1 true
        WFS_ERR_HARDWARE_ERROR).2.1 = [some (MgrService.mk 2 100 0)] ∧
    (wfsAsyncDispatch [some (MgrService.mk 2 100 0)] 1 true WFS_SUCCESS).1
      ≠ WFS_ERR_INVALID_HSERVICE ∧
    closeService [some (MgrService.mk 1 100 0)] 1 WFS_SUCCESS
      = some (WFS_ERR_INVALID_HSERVICE, [some (MgrService.mk 1 100 0)]) ∧
    closeService [some (MgrService.mk 1 100 0), some (MgrService.mk 1 100 0)] 1
        WFS_SUCCESS
      = some (WFS_SUCCESS, [none, some (MgrService.mk 2 100 0)]) ∧
    closeService [some (MgrService.mk 1 100 0)] 0 WFS_SUCCESS = none := by
  refine ⟨rfl, rfl, by decide, rfl, rfl, rfl⟩

/-! ## Claim C10 -/

theorem get?_replicate_bool (n i : Nat) (b : Bool) :
    (List.replicate n b).get? i = if i < n then some b else none := by
  rw [List.get?_eq_getElem?, List.getElem?_replicate]

/-- Claim C10 counterexample: the timer table of src/xfslib/src/timer.rs is
built from the range (1..WORD::MAX) and has only 65534 slots, so
kill_timer(65535) — the maximum WORD id, with id 0 also in range — indexes
out of bounds and panics instead of returning a result code. -/
theorem c10_counterexample :
    timerKillTimer (List.replicate TIMER_TIMER_SLOTS false) 65535 = none := by
  unfold timerKillTimer
  rw [if_neg (by decide), get?_replicate_bool]
  rw [if_neg (by decide)]

/-- Claim C10 (amended): kill_timer atomically empties the slot — it
succeeds exactly when the slot held a pending timer and fails with
WFS_ERR_INVALID_TIMER when the slot was already empty (unclaimed, already
killed, or consumed by a one-shot firing) — and returns a result code
without crashing for id 0 and for every id within its table: up to 65535
for the 65535-slot table of src/xfslib/src/supp.rs, but only up to 65534
for the 65534-slot table of src/xfslib/src/timer.rs. -/
theorem c10_kill_timer_swap (timers timers2 : List Bool) (id id2 : Nat)
    (hlen : timers.length = SUPP_TIMER_SLOTS) (hid1 : 1 ≤ id) (hid : id ≤ 65535)
    (hlen2 : timers2.length = TIMER_TIMER_SLOTS) (hid21 : 1 ≤ id2)
    (hid2 : id2 ≤ 65534) :
    suppKillTimer timers 0 = some (WFS_ERR_INVALID_TIMER, timers) ∧
    (timers.get? (id - 1) = some true →
      suppKillTimer timers id = some (WFS_SUCCESS, timers.set (id - 1) false)) ∧
    (timers.get? (id - 1) = some false →
      suppKillTimer timers id = some (WFS_ERR_INVALID_TIMER, timers)) ∧
    (suppKillTimer timers id).isSome = true ∧
    timerKillTimer timers2 0 = some (WFS_ERR_INVALID_TIMER, timers2) ∧
    (timers2.get? (id2 - 1) = some true →
      timerKillTimer timers2 id2 = some (WFS_SUCCESS, timers2.set (id2 - 1) false)) ∧
    (timers2.get? (id2 - 1) = some false →
      timerKillTimer timers2 id2 = some (WFS_ERR_INVALID_TIMER, timers2)) ∧
    (timerKillTimer timers2 id2).isSome = true := by
  have hid0 : id ≠ 0 := by omega
  have hid20 : id2 ≠ 0 := by omega
  have hin : id - 1 < timers.length := by
    rw [hlen]
    unfold SUPP_TIMER_SLOTS
    omega
  have hin2 : id2 - 1 < timers2.length := by
    rw [hlen2]
    unfold TIMER_TIMER_SLOTS
    omega
  refine ⟨rfl, ?_, ?_, ?_, rfl, ?_, ?_, ?_⟩
  · intro hget
    unfold suppKillTimer
    rw [if_neg hid0, hget]
    rfl
  · intro hget
    unfold suppKillTimer
    rw [if_neg hid0, hget]
    rfl
  · unfold suppKillTimer
    rw [if_neg hid0]
    rcases hget : timers.get? (id - 1) with _ | b
    · exact absurd (List.get?_eq_none.mp hget) (by omega)
    · cases b
      · rfl
      · rfl
  · intro hget
    unfold timerKillTimer
    rw [if_neg hid20, hget]
    rfl
  · intro hget
    unfold timerKillTimer
    rw [if_neg hid20, hget]
    rfl
  · unfold timerKillTimer
    rw [if_neg hid20]
    rcases hget : timers2.get? (id2 - 1) with _ | b
    · exact absurd (List.get?_eq_none.mp hget) (by omega)
    · cases b
      · rfl
      · rfl

/-- Witness for C10 on fully occupied tables and the largest in-table ids. -/
theorem c10_witness :
    ((List.replicate 65535 true).length = SUPP_TIMER_SLOTS ∧
      (List.replicate 65534 true).length = TIMER_TIMER_SLOTS) ∧
    suppKillTimer (List.replicate 65535 true) 0
      = some (WFS_ERR_INVALID_TIMER, List.replicate 65535 true) ∧
    suppKillTimer (List.replicate 65535 true) 65535
      = some (WFS_SUCCESS, (List.replicate 65535 true).set 65534 false) ∧
    timerKillTimer (List.replicate 65534 true) 65534
      = some (WFS_SUCCESS, (List.replicate 65534 true).set 65533 false) :=
  ⟨⟨by rw [List.length_replicate]; rfl, by rw [List.length_replicate]; rfl⟩,
   (c10_kill_timer_swap (List.replicate 65535 true) (List.replicate 65534 true)
      65535 65534 (by rw [List.length_replicate]; rfl) (by decide) (by decide)
      (by rw [List.length_replicate]; rfl) (by decide) (by decide)).1,
   (c10_kill_timer_swap (List.replicate 65535 true) (List.replicate 65534 true)
      65535 65534 (by rw [List.length_replicate]; rfl) (by decide) (by decide)
      (by rw [List.length_replicate]; rfl) (by decide) (by decide)).2.1
     (by rw [get?_replicate_bool]; decide),
   (c10_kill_timer_swap (List.replicate 65535 true) (List.replicate 65534 true)
      65535 65534 (by rw [List.length_replicate]; rfl) (by decide) (by decide)
      (by rw [List.length_replicate]; rfl) (by decide) (by decide)).2.2.2.2.2.1
     (by rw [get?_replicate_bool]; decide)⟩

end XFS
